import Mathlib

/-!
Shallow embedding of the Book_Recommendation repository core:
`recommendation_engine.py` (scoring, similar books), `gamification.py`
(streak / points / badge state machine) and `book_manager.py` (return and
rating recording), over an explicit relational state mirroring the
SQLite tables of `database.py`.

Conventions: SQL `NULL` ratings are `Option Int`; Python truthiness of a
rating (`if rating:`) is `none`/`some 0` falsy; floats (`2.0`, `1.5`,
`0.5`, `3.0`, `AVG`) are modelled exactly in `ℚ`; calendar dates used only
through whole-day differences are modelled as integer day numbers, and
dates used only as opaque stored strings stay `String`.
-/

namespace BookRec

/-- Row of the `users` table (the columns the embedded code reads). -/
structure User where
  user_id : Nat
  name : String
  community_name : String
  age : Int
deriving DecidableEq

/-- Row of the `books` table (the columns the embedded code reads). -/
structure Book where
  book_id : Nat
  title : String
  author : String
  genre : String
  age_group : String
  owner_id : Nat
  available : Bool
deriving DecidableEq

/-- Row of the `reading_history` table. -/
structure HistoryRow where
  user_id : Nat
  book_id : Nat
  rating : Option Int
  completed_date : String
  review : Option String
deriving DecidableEq

/-- Row of the `borrowing_records` table. -/
structure BorrowRecord where
  book_id : Nat
  borrower_id : Nat
  borrow_date : String
  due_date : String
  return_date : Option String
  status : String
deriving DecidableEq

/-- The relational state: the four tables the embedded core touches. -/
structure DB where
  users : List User
  books : List Book
  reading_history : List HistoryRow
  borrowing_records : List BorrowRecord
deriving DecidableEq

/-- Python truthiness of a nullable integer rating (`if rating:`). -/
def truthyRating : Option Int → Bool
  | none => false
  | some v => v != 0

/-- SQL `rating >= 4` on a nullable column (`NULL` compares false). -/
def ratedAtLeast4 : Option Int → Bool
  | none => false
  | some v => decide (4 ≤ v)

/-- Numeric value a rating contributes when accumulated (`+= rating`). -/
def ratingValue : Option Int → ℚ
  | none => 0
  | some v => (v : ℚ)

/-- Rows of the join in `get_user_reading_profile`:
`SELECT b.genre, b.author, rh.rating FROM reading_history rh JOIN books b
ON rh.book_id = b.book_id WHERE rh.user_id = ?`. -/
def profileHistory (db : DB) (uid : Nat) : List (String × String × Option Int) :=
  (db.reading_history.filter (fun rh => rh.user_id == uid)).flatMap
    (fun rh => (db.books.filter (fun b => b.book_id == rh.book_id)).map
      (fun b => (b.genre, b.author, rh.rating)))

/-- Value of `genre_scores[g]` in `get_user_reading_profile`: the sum of
the reader's truthy ratings over history rows whose book has genre `g`. -/
def genreSum (db : DB) (uid : Nat) (g : String) : ℚ :=
  (((profileHistory db uid).filter
    (fun r => r.1 == g && truthyRating r.2.2)).map (fun r => ratingValue r.2.2)).sum

/-- Whether `g` is a key of `genre_scores` (a `defaultdict` keyed on first
`+=`): some row of genre `g` carries a truthy rating. -/
def hasGenre (db : DB) (uid : Nat) (g : String) : Bool :=
  (profileHistory db uid).any (fun r => r.1 == g && truthyRating r.2.2)

/-- Value of `author_scores[a]` in `get_user_reading_profile`. -/
def authorSum (db : DB) (uid : Nat) (a : String) : ℚ :=
  (((profileHistory db uid).filter
    (fun r => r.2.1 == a && truthyRating r.2.2)).map (fun r => ratingValue r.2.2)).sum

/-- Whether `a` is a key of `author_scores`. -/
def hasAuthor (db : DB) (uid : Nat) (a : String) : Bool :=
  (profileHistory db uid).any (fun r => r.2.1 == a && truthyRating r.2.2)

/-- Non-null ratings of a book: what SQL `AVG(rating)` aggregates over. -/
def bookRatings (db : DB) (bid : Nat) : List Int :=
  (db.reading_history.filter (fun rh => rh.book_id == bid)).filterMap (fun rh => rh.rating)

/-- SQL `SELECT AVG(rating) FROM reading_history WHERE book_id = ?`:
`none` when no non-null rating exists, else the exact mean. -/
def avgRating (db : DB) (bid : Nat) : Option ℚ :=
  if bookRatings db bid = [] then none
  else some (((bookRatings db bid).map (fun (v : ℤ) => (v : ℚ))).sum
    / ((bookRatings db bid).length : ℚ))

/-- The community-average summand of `recommend_books`: Python adds
`avg_rating` when truthy (non-`NULL` and nonzero), else the neutral `3.0`. -/
def communityTerm (db : DB) (bid : Nat) : ℚ :=
  match avgRating db bid with
  | none => 3
  | some a => if a = 0 then 3 else a

/-- The `COUNT(*)` of the self-join in `recommend_books`: the number of
pairs (row of the reader rated ≥4, row of a different reader rated ≥4 on
the same book). -/
def similarUsersCount (db : DB) (uid : Nat) : Nat :=
  ((db.reading_history.filter
      (fun r1 => r1.user_id == uid && ratedAtLeast4 r1.rating)).flatMap
    (fun r1 => db.reading_history.filter
      (fun r2 => r2.book_id == r1.book_id && r2.user_id != uid
        && ratedAtLeast4 r2.rating))).length

/-- The peer summand of `recommend_books`: `similar_users * 0.5` when the
count is positive, else nothing is added. -/
def peerBonus (db : DB) (uid : Nat) : ℚ :=
  if 0 < similarUsersCount db uid then (similarUsersCount db uid : ℚ) * (1 / 2) else 0

/-- Score the `recommend_books` loop assigns one candidate book. -/
def candidateScore (db : DB) (uid : Nat) (b : Book) : ℚ :=
  (if hasGenre db uid b.genre then genreSum db uid b.genre * 2 else 0)
  + (if hasAuthor db uid b.author then authorSum db uid b.author * (3 / 2) else 0)
  + communityTerm db b.book_id
  + peerBonus db uid

/-- Comparison definition for the peer-term analysis: the candidate score
with the peer summand removed. -/
def candidateScoreNoPeer (db : DB) (uid : Nat) (b : Book) : ℚ :=
  (if hasGenre db uid b.genre then genreSum db uid b.genre * 2 else 0)
  + (if hasAuthor db uid b.author then authorSum db uid b.author * (3 / 2) else 0)
  + communityTerm db b.book_id

/-- Age bracket computed in `recommend_books`. -/
def ageGroupOf (age : Int) : String :=
  if age ≤ 8 then "5-8"
  else if age ≤ 12 then "9-12"
  else if age ≤ 16 then "13-16"
  else "16+"

/-- The candidate-pool query of `recommend_books`: same community (via the
owner), same age bracket, available, not in the reader's history and not
actively borrowed by the reader. -/
def eligiblePool (db : DB) (community : String) (ag : String) (uid : Nat) : List Book :=
  db.books.filter (fun b =>
    db.users.any (fun u => u.user_id == b.owner_id && u.community_name == community)
    && b.age_group == ag
    && b.available
    && !(db.reading_history.any (fun rh => rh.user_id == uid && rh.book_id == b.book_id))
    && !(db.borrowing_records.any (fun br =>
      br.borrower_id == uid && br.book_id == b.book_id && br.status == "active")))

/-- Stable insertion step of a descending sort on the score component:
mirrors `list.sort(key=score, reverse=True)` which is stable. -/
def insertDesc {α β : Type} [LinearOrder β] (x : α × β) : List (α × β) → List (α × β)
  | [] => [x]
  | y :: ys => if y.2 < x.2 then x :: y :: ys else y :: insertDesc x ys

/-- Stable descending sort on the score component. -/
def sortDesc {α β : Type} [LinearOrder β] (l : List (α × β)) : List (α × β) :=
  l.foldl (fun acc x => insertDesc x acc) []

/-- Embedding of `RecommendationEngine.recommend_books`: look the user up,
build the eligible pool, score every candidate, sort descending by score
and keep the first `limit`. -/
def recommend_books (db : DB) (uid : Nat) (limit : Nat) : List (Book × ℚ) :=
  match db.users.find? (fun u => u.user_id == uid) with
  | none => []
  | some u =>
    let pool := eligiblePool db u.community_name (ageGroupOf u.age) uid
    if pool.isEmpty then []
    else (sortDesc (pool.map (fun b => (b, candidateScore db uid b)))).take limit

/-- Comparison definition for the peer-term analysis: `recommend_books`
with the peer summand removed from every candidate score. -/
def recommend_booksNoPeer (db : DB) (uid : Nat) (limit : Nat) : List (Book × ℚ) :=
  match db.users.find? (fun u => u.user_id == uid) with
  | none => []
  | some u =>
    let pool := eligiblePool db u.community_name (ageGroupOf u.age) uid
    if pool.isEmpty then []
    else (sortDesc (pool.map (fun b => (b, candidateScoreNoPeer db uid b)))).take limit

/-- Similarity score of `find_similar_books`: 3 for a genre match plus 2
for an author match against the reference book. -/
def simScore (t b : Book) : Int :=
  (if b.genre == t.genre then 3 else 0) + (if b.author == t.author then 2 else 0)

/-- Embedding of `RecommendationEngine.find_similar_books`: an unknown
reference id yields `[]`; otherwise every other available book of the
reference's age bracket is scored and sorted descending by score. -/
def find_similar_books (db : DB) (bid : Nat) (limit : Nat) : List (Book × Int) :=
  match db.books.find? (fun b => b.book_id == bid) with
  | none => []
  | some t =>
    (sortDesc ((db.books.filter (fun b =>
      b.book_id != bid && b.age_group == t.age_group && b.available)).map
        (fun b => (b, simScore t b)))).take limit

/-- Embedding of `BookManager.return_book`: close the active borrowing
record, mark the book available and, when the rating is truthy, append a
reading-history row; the function reports success unconditionally. -/
def return_book (db : DB) (bid uid : Nat) (rating : Option Int)
    (review : Option String) (today : String) : DB × Bool :=
  let brs := db.borrowing_records.map (fun br =>
    if br.book_id == bid && br.borrower_id == uid && br.status == "active" then
      { br with return_date := some today, status := "returned" }
    else br)
  let bks := db.books.map (fun b =>
    if b.book_id == bid then { b with available := true } else b)
  let hist :=
    if truthyRating rating then
      db.reading_history ++ [⟨uid, bid, rating, today, review⟩]
    else db.reading_history
  ({ db with borrowing_records := brs, books := bks, reading_history := hist }, true)

/-- Row of the `user_stats` table, the per-reader state of the
gamification engine.  The last-activity date is an integer day number. -/
structure Stats where
  total_books_read : Nat
  current_streak : Nat
  longest_streak : Nat
  total_points : Nat
  badges : List String
  last_activity_date : Option Int
deriving DecidableEq

/-- Delta record returned by `update_reading_stats`. -/
structure StatsDelta where
  points_earned : Nat
  total_points : Nat
  new_badges : List String
  current_streak : Nat
  longest_streak : Nat
  total_books : Nat
deriving DecidableEq

/-- One guarded append of `_check_badges`: add the badge id when its
predicate holds and the id is not already in the list. -/
def addBadgeIf (cond : Bool) (badge_id : String) (badges : List String) : List String :=
  if cond && !(badges.contains badge_id) then badges ++ [badge_id] else badges

/-- The six badge ids `_check_badges` can append. -/
def allBadgeIds : List String :=
  ["first_book", "week_streak", "month_streak", "bookworm", "scholar", "genius"]

/-- Embedding of `GamificationSystem._check_badges`: the six sequential
guarded appends, in source order. -/
def check_badges (total_books : Nat) (current_streak : Nat)
    (current_badges : List String) : List String :=
  let b1 := addBadgeIf (decide (1 ≤ total_books)) "first_book" current_badges
  let b2 := addBadgeIf (decide (7 ≤ current_streak)) "week_streak" b1
  let b3 := addBadgeIf (decide (30 ≤ current_streak)) "month_streak" b2
  let b4 := addBadgeIf (decide (10 ≤ total_books)) "bookworm" b3
  let b5 := addBadgeIf (decide (25 ≤ total_books)) "scholar" b4
  addBadgeIf (decide (50 ≤ total_books)) "genius" b5

/-- Embedding of `GamificationSystem.update_reading_stats` on one loaded
stats record.  `today` is the event date as a day number, so
`today - last` is the `(datetime.now() - last_date).days` gap. -/
def update_reading_stats (stats : Stats) (today : Int) : Stats × StatsDelta :=
  let total_books := stats.total_books_read + 1
  let current_streak :=
    match stats.last_activity_date with
    | some last =>
      let days_diff := today - last
      if days_diff = 1 then stats.current_streak + 1
      else if 1 < days_diff then 1
      else stats.current_streak
    | none => 1
  let longest_streak :=
    if stats.longest_streak < current_streak then current_streak
    else stats.longest_streak
  let points_earned := 10 + current_streak * 2
  let total_points := stats.total_points + points_earned
  let new_badges_list := check_badges total_books current_streak stats.badges
  let newly_earned := new_badges_list.filter (fun b => !(stats.badges.contains b))
  (⟨total_books, current_streak, longest_streak, total_points,
      new_badges_list, some today⟩,
    ⟨points_earned, total_points, newly_earned, current_streak,
      longest_streak, total_books⟩)

/-- Spec-side community term, for the refinement comparison: the mean
rating across all readers' completions of the item, substituting the
neutral 3 when no rated completion exists. -/
def meanOrDefault (db : DB) (bid : Nat) : ℚ :=
  match avgRating db bid with
  | none => 3
  | some a => a

/-- Modelled from the spec: the number of distinct *other* readers who
share at least one item that both the requesting reader and that peer
rated at least 4 (each peer counted once). -/
def specPeerCount (db : DB) (uid : Nat) : Nat :=
  (((db.reading_history.map (fun r => r.user_id)).dedup).filter (fun p =>
    p != uid && db.reading_history.any (fun r1 =>
      r1.user_id == uid && ratedAtLeast4 r1.rating
      && db.reading_history.any (fun r2 =>
        r2.user_id == p && r2.book_id == r1.book_id
          && ratedAtLeast4 r2.rating)))).length

/-! Concrete fixtures used by the closed evaluation theorems. -/

/-- Fixture for the scoring scenario: Alice rated two Fantasy books 5 and
5, Bob rated the third Fantasy book 4, nothing is borrowed. -/
def exDb1 : DB :=
  { users := [⟨1, "Alice", "C", 10⟩, ⟨3, "Bob", "C", 10⟩]
    books :=
      [⟨1, "B1", "A1", "Fantasy", "9-12", 1, true⟩,
       ⟨2, "B2", "A2", "Fantasy", "9-12", 1, true⟩,
       ⟨3, "B3", "A3", "Fantasy", "9-12", 1, true⟩]
    reading_history :=
      [⟨1, 1, some 5, "2024-01-01", none⟩,
       ⟨1, 2, some 5, "2024-01-02", none⟩,
       ⟨3, 3, some 4, "2024-01-03", none⟩]
    borrowing_records := [] }

/-- The unread Fantasy candidate of the scoring scenario. -/
def exBook3 : Book := ⟨3, "B3", "A3", "Fantasy", "9-12", 1, true⟩

/-- Fixture for the peer-bonus analysis: readers 1 and 2 both rated the
same two items (10 and 11) with 5. -/
def exDb6 : DB :=
  { users := []
    books := []
    reading_history :=
      [⟨1, 10, some 5, "2024-01-01", none⟩,
       ⟨1, 11, some 5, "2024-01-02", none⟩,
       ⟨2, 10, some 5, "2024-01-03", none⟩,
       ⟨2, 11, some 5, "2024-01-04", none⟩]
    borrowing_records := [] }

/-- A candidate book outside every profile and history of `exDb6`. -/
def exBookX : Book := ⟨99, "X", "AX", "GX", "9-12", 1, true⟩

/-- Fixture with a single catalog book, id 1. -/
def exDb7 : DB :=
  { users := []
    books := [⟨1, "T", "A", "G", "9-12", 1, true⟩]
    reading_history := []
    borrowing_records := [] }

/-- Fixture for the similarity scenario: reference X, Y sharing genre and
author, Z sharing only genre, W sharing neither. -/
def exDb8 : DB :=
  { users := []
    books :=
      [⟨1, "X", "A", "Fantasy", "9-12", 1, true⟩,
       ⟨2, "Y", "A", "Fantasy", "9-12", 1, true⟩,
       ⟨3, "Z", "B", "Fantasy", "9-12", 1, true⟩,
       ⟨4, "W", "C", "SciFi", "9-12", 1, true⟩]
    reading_history := []
    borrowing_records := [] }

/-- The reference book of `exDb8`. -/
def exBookRef : Book := ⟨1, "X", "A", "Fantasy", "9-12", 1, true⟩

/-- Fixture for the return path: book 1 actively borrowed by reader 2. -/
def exDb9 : DB :=
  { users := []
    books := [⟨1, "T", "A", "G", "9-12", 3, false⟩]
    reading_history := []
    borrowing_records := [⟨1, 2, "2024-01-01", "2024-01-15", none, "active"⟩] }

/-- A stats record one day after its last activity, streak 1. -/
def exStats : Stats := ⟨1, 1, 1, 12, ["first_book"], some 5⟩

/-! Helper lemmas about the badge appends. -/

/-- Badges survive one guarded append. -/
theorem mem_addBadgeIf_of_mem {b badge_id : String} {c : Bool} {l : List String}
    (h : b ∈ l) : b ∈ addBadgeIf c badge_id l := by
  unfold addBadgeIf
  split
  · exact List.mem_append_left _ h
  · exact h

/-- Membership after one guarded append comes from the input list or is
the appended id. -/
theorem mem_addBadgeIf {b badge_id : String} {c : Bool} {l : List String}
    (h : b ∈ addBadgeIf c badge_id l) : b ∈ l ∨ b = badge_id := by
  unfold addBadgeIf at h
  split at h
  · rcases List.mem_append.mp h with h1 | h1
    · exact Or.inl h1
    · exact Or.inr (List.mem_singleton.mp h1)
  · exact Or.inl h

/-- One guarded append preserves duplicate-freeness. -/
theorem nodup_addBadgeIf {badge_id : String} {c : Bool} {l : List String}
    (h : l.Nodup) : (addBadgeIf c badge_id l).Nodup := by
  unfold addBadgeIf
  split
  · next hc =>
    have hnot : badge_id ∉ l := by
      simp only [Bool.and_eq_true, Bool.not_eq_true'] at hc
      simpa using hc.2
    simp [List.nodup_append, h, hnot]
  · exact h

/-- Badges survive the whole badge check. -/
theorem mem_check_badges_of_mem {b : String} (tb cs : Nat) {l : List String}
    (h : b ∈ l) : b ∈ check_badges tb cs l := by
  unfold check_badges
  exact mem_addBadgeIf_of_mem (mem_addBadgeIf_of_mem (mem_addBadgeIf_of_mem
    (mem_addBadgeIf_of_mem (mem_addBadgeIf_of_mem (mem_addBadgeIf_of_mem h)))))

/-- The badge check preserves duplicate-freeness. -/
theorem nodup_check_badges (tb cs : Nat) {l : List String}
    (h : l.Nodup) : (check_badges tb cs l).Nodup := by
  unfold check_badges
  exact nodup_addBadgeIf (nodup_addBadgeIf (nodup_addBadgeIf
    (nodup_addBadgeIf (nodup_addBadgeIf (nodup_addBadgeIf h)))))

/-- Every badge after the check was already present or is one of the six
badge ids. -/
theorem mem_check_badges {b : String} (tb cs : Nat) {l : List String}
    (h : b ∈ check_badges tb cs l) : b ∈ l ∨ b ∈ allBadgeIds := by
  unfold check_badges at h
  rcases mem_addBadgeIf h with h | rfl
  on_goal 2 => simp [allBadgeIds]
  rcases mem_addBadgeIf h with h | rfl
  on_goal 2 => simp [allBadgeIds]
  rcases mem_addBadgeIf h with h | rfl
  on_goal 2 => simp [allBadgeIds]
  rcases mem_addBadgeIf h with h | rfl
  on_goal 2 => simp [allBadgeIds]
  rcases mem_addBadgeIf h with h | rfl
  on_goal 2 => simp [allBadgeIds]
  rcases mem_addBadgeIf h with h | rfl
  on_goal 2 => simp [allBadgeIds]
  exact Or.inl h

/-- One completion update never decreases the accumulated points. -/
theorem total_points_mono_step (s : Stats) (d : Int) :
    s.total_points ≤ (update_reading_stats s d).1.total_points :=
  Nat.le_add_right _ _

/-- Accumulated points never decrease along any sequence of updates. -/
theorem total_points_mono_foldl (s : Stats) (ds : List Int) :
    s.total_points
      ≤ (ds.foldl (fun st d => (update_reading_stats st d).1) s).total_points := by
  induction ds generalizing s with
  | nil => exact le_rfl
  | cons d ds ih => exact le_trans (total_points_mono_step s d) (ih _)

/-- C2: for every completion event processed by the streak engine, the new
current streak is 1 on first-ever activity, the previous streak plus 1
when the day gap is exactly 1, reset to 1 when the gap exceeds 1, and
unchanged on a same-day repeat (gap 0). -/
theorem streak_transition (s : Stats) (today : Int) :
    (s.last_activity_date = none →
      (update_reading_stats s today).1.current_streak = 1)
  ∧ (∀ d, s.last_activity_date = some d → today - d = 1 →
      (update_reading_stats s today).1.current_streak = s.current_streak + 1)
  ∧ (∀ d, s.last_activity_date = some d → 1 < today - d →
      (update_reading_stats s today).1.current_streak = 1)
  ∧ (∀ d, s.last_activity_date = some d → today - d = 0 →
      (update_reading_stats s today).1.current_streak = s.current_streak) := by
  refine ⟨fun h => ?_, fun d h hgap => ?_, fun d h hgap => ?_, fun d h hgap => ?_⟩
  · simp [update_reading_stats, h]
  · simp [update_reading_stats, h, hgap]
  · have h1 : ¬(today - d = 1) := by omega
    simp [update_reading_stats, h, h1, hgap]
  · have h1 : ¬(today - d = 1) := by omega
    have h2 : ¬(1 < today - d) := by omega
    simp [update_reading_stats, h, h1, h2]

/-- Witness for the streak transition: a concrete reader with streak 1 and
last activity on day 5 completes a book on day 6 and moves to streak 2. -/
theorem streak_transition_witness :
    exStats.last_activity_date = some 5
  ∧ (6 : Int) - 5 = 1
  ∧ (update_reading_stats exStats 6).1.current_streak = exStats.current_streak + 1 :=
  ⟨rfl, by norm_num, (streak_transition exStats 6).2.1 5 rfl (by norm_num)⟩

/-- C3: every update earns exactly 10 plus twice the new streak, adds
exactly that amount to the total, the total never decreases along any
sequence of updates, and the day-1 / day-2 / day-5 scenario yields 12,
then 14 (total 26), then 12 (total 38). -/
theorem points_accrual (s : Stats) (today : Int) (ds : List Int) :
    (update_reading_stats s today).2.points_earned
      = 10 + (update_reading_stats s today).1.current_streak * 2
  ∧ (update_reading_stats s today).1.total_points
      = s.total_points + (update_reading_stats s today).2.points_earned
  ∧ s.total_points
      ≤ (ds.foldl (fun st d => (update_reading_stats st d).1) s).total_points
  ∧ ((update_reading_stats ⟨0, 0, 0, 0, [], none⟩ 1).2.points_earned = 12
    ∧ (update_reading_stats ⟨0, 0, 0, 0, [], none⟩ 1).1.total_points = 12
    ∧ (update_reading_stats
        (update_reading_stats ⟨0, 0, 0, 0, [], none⟩ 1).1 2).2.points_earned = 14
    ∧ (update_reading_stats
        (update_reading_stats ⟨0, 0, 0, 0, [], none⟩ 1).1 2).1.total_points = 26
    ∧ (update_reading_stats (update_reading_stats
        (update_reading_stats ⟨0, 0, 0, 0, [], none⟩ 1).1 2).1 5).2.points_earned = 12
    ∧ (update_reading_stats (update_reading_stats
        (update_reading_stats ⟨0, 0, 0, 0, [], none⟩ 1).1 2).1 5).1.total_points = 38) :=
  ⟨rfl, rfl, total_points_mono_foldl s ds, by decide⟩

/-- C4: when the invariant `current_streak ≤ longest_streak` holds before
an update, the updated longest streak is the maximum of the old longest
streak and the new current streak, and the invariant holds afterwards. -/
theorem longest_streak_invariant (s : Stats) (today : Int)
    (h : s.current_streak ≤ s.longest_streak) :
    (update_reading_stats s today).1.longest_streak
      = max s.longest_streak (update_reading_stats s today).1.current_streak
  ∧ (update_reading_stats s today).1.current_streak
      ≤ (update_reading_stats s today).1.longest_streak := by
  have hc : (update_reading_stats s today).1.longest_streak
      = if s.longest_streak < (update_reading_stats s today).1.current_streak
        then (update_reading_stats s today).1.current_streak
        else s.longest_streak := rfl
  constructor
  · rw [hc]
    split
    · next h1 => exact (max_eq_right h1.le).symm
    · next h1 => exact (max_eq_left (not_lt.mp h1)).symm
  · rw [hc]
    split
    · exact le_rfl
    · next h1 => exact not_lt.mp h1

/-- Witness for the longest-streak invariant at a concrete stats record
satisfying the precondition. -/
theorem longest_streak_invariant_witness :
    exStats.current_streak ≤ exStats.longest_streak
  ∧ ((update_reading_stats exStats 6).1.longest_streak
      = max exStats.longest_streak (update_reading_stats exStats 6).1.current_streak
    ∧ (update_reading_stats exStats 6).1.current_streak
      ≤ (update_reading_stats exStats 6).1.longest_streak) :=
  ⟨by decide, longest_streak_invariant exStats 6 (by decide)⟩

/-- C5: an update preserves every previously present badge id, preserves
duplicate-freeness of the badge set, and only ever adds ids drawn from the
six badge definitions. -/
theorem badges_monotone (s : Stats) (today : Int) :
    (∀ b ∈ s.badges, b ∈ (update_reading_stats s today).1.badges)
  ∧ (s.badges.Nodup → (update_reading_stats s today).1.badges.Nodup)
  ∧ (∀ b ∈ (update_reading_stats s today).1.badges,
      b ∈ s.badges ∨ b ∈ allBadgeIds) := by
  refine ⟨fun b hb => ?_, fun hnd => ?_, fun b hb => ?_⟩
  · exact mem_check_badges_of_mem _ _ hb
  · exact nodup_check_badges _ _ hnd
  · exact mem_check_badges _ _ hb

/-- Witness for badge monotonicity at a concrete duplicate-free record. -/
theorem badges_monotone_witness :
    exStats.badges.Nodup ∧ (update_reading_stats exStats 6).1.badges.Nodup :=
  ⟨by decide, (badges_monotone exStats 6).2.1 (by decide)⟩

/-! Helper lemmas about the descending stable sort. -/

/-- Unfolding equation of `insertDesc` on a cons cell. -/
theorem insertDesc_cons {α β : Type} [LinearOrder β] (x y : α × β) (ys : List (α × β)) :
    insertDesc x (y :: ys) = if y.2 < x.2 then x :: y :: ys else y :: insertDesc x ys :=
  rfl

/-- Membership in an insertion step. -/
theorem mem_insertDesc {α β : Type} [LinearOrder β] {a x : α × β} {l : List (α × β)} :
    a ∈ insertDesc x l ↔ a = x ∨ a ∈ l := by
  induction l with
  | nil => simp [insertDesc]
  | cons y ys ih =>
    rw [insertDesc_cons]
    split
    · simp
    · simp only [List.mem_cons, ih]
      tauto

/-- Membership through the sorting fold. -/
theorem mem_foldl_insertDesc {α β : Type} [LinearOrder β] (l acc : List (α × β))
    (a : α × β) :
    a ∈ l.foldl (fun ac x => insertDesc x ac) acc ↔ a ∈ acc ∨ a ∈ l := by
  induction l generalizing acc with
  | nil => simp
  | cons x xs ih =>
    rw [List.foldl_cons, ih, mem_insertDesc]
    simp only [List.mem_cons]
    tauto

/-- The descending sort is a reordering: membership is unchanged. -/
theorem mem_sortDesc {α β : Type} [LinearOrder β] {l : List (α × β)} {a : α × β} :
    a ∈ sortDesc l ↔ a ∈ l := by
  unfold sortDesc
  rw [mem_foldl_insertDesc]
  simp

/-- Inserting into a descending list keeps it descending. -/
theorem pairwise_insertDesc {α β : Type} [LinearOrder β] (x : α × β)
    {l : List (α × β)} (h : l.Pairwise (fun p q => q.2 ≤ p.2)) :
    (insertDesc x l).Pairwise (fun p q => q.2 ≤ p.2) := by
  induction l with
  | nil => simp [insertDesc]
  | cons y ys ih =>
    rcases List.pairwise_cons.mp h with ⟨hy, hys⟩
    rw [insertDesc_cons]
    split
    · next hlt =>
      refine List.pairwise_cons.mpr ⟨?_, h⟩
      intro z hz
      rcases List.mem_cons.mp hz with rfl | hz
      · exact hlt.le
      · exact le_trans (hy z hz) hlt.le
    · next hge =>
      refine List.pairwise_cons.mpr ⟨?_, ih hys⟩
      intro z hz
      rcases mem_insertDesc.mp hz with rfl | hz
      · exact not_lt.mp hge
      · exact hy z hz

/-- The sorting fold keeps a descending accumulator descending. -/
theorem pairwise_foldl_insertDesc {α β : Type} [LinearOrder β]
    (l acc : List (α × β)) (hacc : acc.Pairwise (fun p q => q.2 ≤ p.2)) :
    (l.foldl (fun ac x => insertDesc x ac) acc).Pairwise (fun p q => q.2 ≤ p.2) := by
  induction l generalizing acc with
  | nil => exact hacc
  | cons x xs ih => exact ih _ (pairwise_insertDesc x hacc)

/-- The output of the descending sort is descending in the score. -/
theorem pairwise_sortDesc {α β : Type} [LinearOrder β] (l : List (α × β)) :
    (sortDesc l).Pairwise (fun p q => q.2 ≤ p.2) :=
  pairwise_foldl_insertDesc l [] List.Pairwise.nil

/-- Shifting every score by a constant commutes with one insertion. -/
theorem insertDesc_map_add {α : Type} (c : ℚ) (x : α × ℚ) (l : List (α × ℚ)) :
    insertDesc (x.1, x.2 + c) (l.map (fun p => (p.1, p.2 + c)))
      = (insertDesc x l).map (fun p => (p.1, p.2 + c)) := by
  induction l with
  | nil => rfl
  | cons y ys ih =>
    rw [List.map_cons, insertDesc_cons, insertDesc_cons]
    by_cases hlt : y.2 < x.2
    · rw [if_pos hlt, if_pos (show ((y.1, y.2 + c) : α × ℚ).2 < (x.1, x.2 + c).2 by
        simpa using hlt)]
      simp
    · rw [if_neg hlt, if_neg (show ¬((y.1, y.2 + c) : α × ℚ).2 < (x.1, x.2 + c).2 by
        simpa using hlt)]
      rw [List.map_cons, ih]

/-- Shifting every score by a constant commutes with the sorting fold. -/
theorem foldl_insertDesc_map_add {α : Type} (c : ℚ) (l acc : List (α × ℚ)) :
    (l.map (fun p => (p.1, p.2 + c))).foldl (fun ac x => insertDesc x ac)
        (acc.map (fun p => (p.1, p.2 + c)))
      = (l.foldl (fun ac x => insertDesc x ac) acc).map (fun p => (p.1, p.2 + c)) := by
  induction l generalizing acc with
  | nil => rfl
  | cons x xs ih =>
    rw [List.map_cons, List.foldl_cons, List.foldl_cons, insertDesc_map_add, ih]

/-- Shifting every score by a constant commutes with the descending sort. -/
theorem sortDesc_map_add {α : Type} (c : ℚ) (l : List (α × ℚ)) :
    sortDesc (l.map (fun p => (p.1, p.2 + c)))
      = (sortDesc l).map (fun p => (p.1, p.2 + c)) := by
  unfold sortDesc
  simpa using foldl_insertDesc_map_add c l []

/-! Helper lemmas about the candidate score. -/

/-- The candidate score splits into its peer-free part plus the peer
summand, which does not depend on the candidate. -/
theorem score_peer_split (db : DB) (uid : Nat) (b : Book) :
    candidateScore db uid b = candidateScoreNoPeer db uid b + peerBonus db uid :=
  rfl

/-- When a genre is absent from the profile its accumulated weight is 0,
so the guarded genre summand always equals the unguarded product. -/
theorem genre_summand_eq (db : DB) (uid : Nat) (g : String) :
    (if hasGenre db uid g then genreSum db uid g * 2 else 0)
      = genreSum db uid g * 2 := by
  cases hg : hasGenre db uid g with
  | true => rw [if_pos rfl]
  | false =>
    have hnil : (profileHistory db uid).filter
        (fun r => r.1 == g && truthyRating r.2.2) = [] := by
      rw [List.filter_eq_nil_iff]
      intro r hr
      unfold hasGenre at hg
      rw [List.any_eq_false] at hg
      exact hg r hr
    rw [if_neg (by simp [hg])]
    unfold genreSum
    rw [hnil]
    simp

/-- Author analogue of the genre summand collapse. -/
theorem author_summand_eq (db : DB) (uid : Nat) (a : String) :
    (if hasAuthor db uid a then authorSum db uid a * (3 / 2) else 0)
      = authorSum db uid a * (3 / 2) := by
  cases hg : hasAuthor db uid a with
  | true => rw [if_pos rfl]
  | false =>
    have hnil : (profileHistory db uid).filter
        (fun r => r.2.1 == a && truthyRating r.2.2) = [] := by
      rw [List.filter_eq_nil_iff]
      intro r hr
      unfold hasAuthor at hg
      rw [List.any_eq_false] at hg
      exact hg r hr
    rw [if_neg (by simp [hg])]
    unfold authorSum
    rw [hnil]
    simp

/-- A nonempty list of rationals, all at least 1, has a positive sum. -/
theorem sum_pos_of_one_le : ∀ (l : List ℚ), (∀ x ∈ l, 1 ≤ x) → l ≠ [] → 0 < l.sum
  | [], _, hne => absurd rfl hne
  | x :: xs, hl, _ => by
    rw [List.sum_cons]
    rcases eq_or_ne xs [] with rfl | hxs
    · have h1 := hl x (by simp)
      simp only [List.sum_nil, add_zero]
      linarith
    · have h1 := hl x (by simp)
      have h2 := sum_pos_of_one_le xs (fun y hy => hl y (List.mem_cons_of_mem _ hy)) hxs
      linarith

/-- With all stored ratings in 1..5, a present community average is
positive. -/
theorem avgRating_pos {db : DB} {bid : Nat} {a : ℚ}
    (hval : ∀ r ∈ db.reading_history, ∀ v, r.rating = some v → 1 ≤ v ∧ v ≤ 5)
    (hav : avgRating db bid = some a) : 0 < a := by
  have hpos : ∀ w ∈ bookRatings db bid, 1 ≤ w := by
    intro w hw
    unfold bookRatings at hw
    rcases List.mem_filterMap.mp hw with ⟨r, hr, hrat⟩
    exact (hval r (List.mem_filter.mp hr).1 w hrat).1
  unfold avgRating at hav
  split at hav
  · exact absurd hav (by simp)
  · next hne =>
    have hsum : 0 < ((bookRatings db bid).map (fun (v : ℤ) => (v : ℚ))).sum := by
      apply sum_pos_of_one_le
      · intro x hx
        rcases List.mem_map.mp hx with ⟨w, hw, rfl⟩
        exact_mod_cast hpos w hw
      · intro hmap
        exact hne (by simpa using hmap)
    have hlen : (0 : ℚ) < ((bookRatings db bid).length : ℚ) := by
      have hl : 0 < (bookRatings db bid).length := List.length_pos.mpr hne
      exact_mod_cast hl
    have := div_pos hsum hlen
    rw [Option.some.injEq] at hav
    rw [← hav]
    exact this

/-- With all stored ratings in 1..5 Python's truthiness test never
mistakes a present average for absent, so the code's community summand
agrees with the spec's mean-or-default. -/
theorem communityTerm_eq_meanOrDefault {db : DB} (bid : Nat)
    (hval : ∀ r ∈ db.reading_history, ∀ v, r.rating = some v → 1 ≤ v ∧ v ≤ 5) :
    communityTerm db bid = meanOrDefault db bid := by
  unfold communityTerm meanOrDefault
  cases hav : avgRating db bid with
  | none => rfl
  | some a =>
    have ha : ¬(a = 0) := ne_of_gt (avgRating_pos hval hav)
    simp [ha]

/-- Every pair the recommender returns carries exactly the loop's
candidate score of its book. -/
theorem score_of_mem_recommend {db : DB} {uid limit : Nat} {b : Book} {s : ℚ}
    (h : (b, s) ∈ recommend_books db uid limit) :
    s = candidateScore db uid b := by
  unfold recommend_books at h
  cases hu : db.users.find? (fun u => u.user_id == uid) with
  | none => rw [hu] at h; simp at h
  | some u =>
    rw [hu] at h
    simp only [] at h
    split at h
    · simp at h
    · have h2 := List.mem_of_mem_take h
      have h3 := mem_sortDesc.mp h2
      rcases List.mem_map.mp h3 with ⟨b', hb', heq⟩
      have h4 : b' = b ∧ candidateScore db uid b' = s := by
        simpa [Prod.ext_iff] using heq
      rcases h4 with ⟨rfl, h5⟩
      exact h5.symm

/-- C10: the peer-affinity summand added by `recommend_books` is one and
the same value for every candidate of a call, and the returned ranking is
exactly the peer-free ranking with every score shifted by that constant,
so the relative order of candidates is identical with or without it. -/
theorem peer_term_uniform (db : DB) (uid limit : Nat) :
    (∀ b : Book,
      candidateScore db uid b = candidateScoreNoPeer db uid b + peerBonus db uid)
  ∧ recommend_books db uid limit
      = (recommend_booksNoPeer db uid limit).map
          (fun p => (p.1, p.2 + peerBonus db uid)) := by
  refine ⟨fun b => score_peer_split db uid b, ?_⟩
  unfold recommend_books recommend_booksNoPeer
  cases hu : db.users.find? (fun u => u.user_id == uid) with
  | none => simp
  | some u =>
    simp only []
    by_cases hp : (eligiblePool db u.community_name (ageGroupOf u.age) uid).isEmpty
    · rw [if_pos hp, if_pos hp]
      rfl
    · rw [if_neg hp, if_neg hp, List.map_take]
      congr 1
      have hmap : (eligiblePool db u.community_name (ageGroupOf u.age) uid).map
          (fun b => (b, candidateScore db uid b))
        = ((eligiblePool db u.community_name (ageGroupOf u.age) uid).map
            (fun b => (b, candidateScoreNoPeer db uid b))).map
              (fun p => (p.1, p.2 + peerBonus db uid)) := by
        rw [List.map_map]
        rfl
      rw [hmap, sortDesc_map_add]

/-- C6 (amended): the peer-affinity contribution the scoring loop adds to
every candidate equals 0.5 times the number of joined row pairs (a row of
the requesting reader rated at least 4 together with a row of a different
reader rated at least 4 on the same item), not 0.5 times the number of
distinct such peers. -/
theorem peer_bonus_counts_row_pairs (db : DB) (uid : Nat) (b : Book) :
    candidateScore db uid b
      = candidateScoreNoPeer db uid b + (similarUsersCount db uid : ℚ) * (1 / 2) := by
  rw [score_peer_split]
  congr 1
  unfold peerBonus
  split
  · rfl
  · next h =>
    have h0 : similarUsersCount db uid = 0 := by omega
    simp [h0]

/-- C6 counterexample: in `exDb6` reader 2 is the only peer sharing a
high-rated item with reader 1 (so the claim's bonus would be 0.5), yet the
scoring loop adds 1 because the two shared items give two join rows. -/
theorem peer_bonus_counterexample :
    candidateScore exDb6 1 exBookX - candidateScoreNoPeer exDb6 1 exBookX = 1
  ∧ specPeerCount exDb6 1 = 1
  ∧ (1 : ℚ) ≠ (1 / 2) * ((specPeerCount exDb6 1 : ℚ)) := by
  have hc : similarUsersCount exDb6 1 = 2 := by decide
  have hs : specPeerCount exDb6 1 = 1 := by decide
  refine ⟨?_, hs, ?_⟩
  · rw [score_peer_split, add_sub_cancel_left]
    rw [peerBonus, hc]
    norm_num
  · rw [hs]
    norm_num

/-- C1: every score returned by `recommend_books` equals the reader's
accumulated genre weight times 2.0, plus the accumulated author weight
times 1.5, plus the item's community mean rating (3.0 when no rated
completion exists), plus the peer-affinity bonus, for states whose stored
ratings lie in 1..5. -/
theorem recommend_score_formula (db : DB) (uid limit : Nat) (b : Book) (s : ℚ)
    (hval : ∀ r ∈ db.reading_history, ∀ v, r.rating = some v → 1 ≤ v ∧ v ≤ 5)
    (hmem : (b, s) ∈ recommend_books db uid limit) :
    s = genreSum db uid b.genre * 2 + authorSum db uid b.author * (3 / 2)
      + meanOrDefault db b.book_id + peerBonus db uid := by
  rw [score_of_mem_recommend hmem]
  unfold candidateScore
  rw [genre_summand_eq, author_summand_eq, communityTerm_eq_meanOrDefault _ hval]

/-- Witness for the scoring formula at the spec scenario: two Fantasy
books rated 5 and 5, an unread Fantasy candidate with community average
4.0, scored 24 = 20 + 4 with a peer bonus of 0. -/
theorem recommend_score_formula_witness :
    (∀ r ∈ exDb1.reading_history, ∀ v, r.rating = some v → 1 ≤ v ∧ v ≤ 5)
  ∧ (exBook3, (24 : ℚ)) ∈ recommend_books exDb1 1 5
  ∧ (24 : ℚ) = genreSum exDb1 1 exBook3.genre * 2
      + authorSum exDb1 1 exBook3.author * (3 / 2)
      + meanOrDefault exDb1 exBook3.book_id + peerBonus exDb1 1 := by
  have hval : ∀ r ∈ exDb1.reading_history, ∀ v, r.rating = some v → 1 ≤ v ∧ v ≤ 5 := by
    decide
  have hrec : recommend_books exDb1 1 5 = [(exBook3, (24 : ℚ))] := by
    norm_num +decide [recommend_books, exDb1, exBook3, eligiblePool, ageGroupOf,
      sortDesc, insertDesc, candidateScore, hasGenre, hasAuthor, genreSum,
      authorSum, profileHistory, communityTerm, avgRating, bookRatings, peerBonus,
      similarUsersCount, truthyRating, ratedAtLeast4, ratingValue, List.filter,
      List.flatMap, List.filterMap, List.foldl,
      show ((5 : ℤ) != 0) = true from by decide,
      show ((4 : ℤ) != 0) = true from by decide]
  have hmem : (exBook3, (24 : ℚ)) ∈ recommend_books exDb1 1 5 := by
    rw [hrec]
    exact List.mem_singleton_self _
  exact ⟨hval, hmem, recommend_score_formula exDb1 1 5 exBook3 24 hval hmem⟩

/-- C8: with an existing reference book, every result of
`find_similar_books` carries the score 3 for a genre match plus 2 for an
author match against the reference, and the results are ordered
descending by that score. -/
theorem similar_books_scoring (db : DB) (bid limit : Nat) (t : Book)
    (ht : db.books.find? (fun b => b.book_id == bid) = some t) :
    (∀ p ∈ find_similar_books db bid limit,
      p.2 = (if p.1.genre = t.genre then 3 else 0)
        + (if p.1.author = t.author then 2 else 0))
  ∧ (find_similar_books db bid limit).Pairwise (fun p q => q.2 ≤ p.2) := by
  constructor
  · intro p hp
    unfold find_similar_books at hp
    rw [ht] at hp
    have h2 := List.mem_of_mem_take hp
    have h3 := mem_sortDesc.mp h2
    rcases List.mem_map.mp h3 with ⟨b', hb', heq⟩
    subst heq
    simp [simScore, beq_iff_eq]
  · unfold find_similar_books
    rw [ht]
    exact (pairwise_sortDesc _).sublist (List.take_sublist _ _)

/-- Witness for the similarity scoring at the spec's X, Y, Z, W scenario:
Y (genre and author) scores 5, Z (genre only) scores 3, W (neither)
scores 0 and ranks last. -/
theorem similar_books_scoring_witness :
    exDb8.books.find? (fun b => b.book_id == 1) = some exBookRef
  ∧ ((∀ p ∈ find_similar_books exDb8 1 5,
      p.2 = (if p.1.genre = exBookRef.genre then 3 else 0)
        + (if p.1.author = exBookRef.author then 2 else 0))
    ∧ (find_similar_books exDb8 1 5).Pairwise (fun p q => q.2 ≤ p.2))
  ∧ find_similar_books exDb8 1 5
      = [(⟨2, "Y", "A", "Fantasy", "9-12", 1, true⟩, 5),
         (⟨3, "Z", "B", "Fantasy", "9-12", 1, true⟩, 3),
         (⟨4, "W", "C", "SciFi", "9-12", 1, true⟩, 0)] :=
  ⟨by decide, similar_books_scoring exDb8 1 5 exBookRef (by decide), by decide⟩

/-- C7 counterexample: for the missing id 999 `find_similar_books` returns
the plain empty list, the same value as the successful empty query for the
existing book 1, so no typed NotFound failure distinguishes the two
outcomes. -/
theorem find_similar_notfound_counterexample :
    (∀ b ∈ exDb7.books, b.book_id ≠ 999)
  ∧ find_similar_books exDb7 999 5 = []
  ∧ (∃ b ∈ exDb7.books, b.book_id = 1)
  ∧ find_similar_books exDb7 1 5 = [] := by decide

/-- C7 (amended): for every id absent from the catalog,
`find_similar_books` returns the empty list, indistinguishable from a
successful empty result; no NotFound failure path exists. -/
theorem find_similar_missing_empty (db : DB) (bid limit : Nat)
    (h : ∀ b ∈ db.books, b.book_id ≠ bid) :
    find_similar_books db bid limit = [] := by
  have hf : db.books.find? (fun b => b.book_id == bid) = none := by
    rw [List.find?_eq_none]
    intro b hb
    simpa using h b hb
  unfold find_similar_books
  rw [hf]

/-- Witness for the amended NotFound behaviour at the missing id 999. -/
theorem find_similar_missing_empty_witness :
    (∀ b ∈ exDb7.books, b.book_id ≠ 999) ∧ find_similar_books exDb7 999 5 = [] :=
  ⟨by decide, find_similar_missing_empty exDb7 999 5 (by decide)⟩

/-- C9 counterexample: the out-of-range rating 7 is accepted by
`return_book`: the call reports success and the rating is recorded into
the reading history instead of failing with a typed InvalidInput error. -/
theorem invalid_rating_accepted_counterexample :
    ¬(1 ≤ (7 : Int) ∧ (7 : Int) ≤ 5)
  ∧ (return_book exDb9 1 2 (some 7) none "2024-01-02").2 = true
  ∧ (⟨2, 1, some 7, "2024-01-02", none⟩ : HistoryRow)
      ∈ (return_book exDb9 1 2 (some 7) none "2024-01-02").1.reading_history := by
  decide

/-- C9 (amended): every truthy (nonzero) rating, in range or not, is
accepted: `return_book` reports success and appends the rating to the
reading history; no InvalidInput failure path exists. -/
theorem nonzero_rating_recorded (db : DB) (bid uid : Nat) (v : Int)
    (rev : Option String) (today : String) (hv : v ≠ 0) :
    (return_book db bid uid (some v) rev today).2 = true
  ∧ (return_book db bid uid (some v) rev today).1.reading_history
      = db.reading_history ++ [⟨uid, bid, some v, today, rev⟩] := by
  refine ⟨rfl, ?_⟩
  simp [return_book, truthyRating, hv]

/-- Witness for the amended rating claim at the out-of-range rating 7. -/
theorem nonzero_rating_recorded_witness :
    (7 : Int) ≠ 0
  ∧ ((return_book exDb9 1 2 (some 7) none "2024-01-02").2 = true
    ∧ (return_book exDb9 1 2 (some 7) none "2024-01-02").1.reading_history
      = exDb9.reading_history ++ [⟨2, 1, some 7, "2024-01-02", none⟩]) :=
  ⟨by decide, nonzero_rating_recorded exDb9 1 2 7 none "2024-01-02" (by decide)⟩

end BookRec
